import Mathlib

/-
Shallow embedding of the chroma-search service (src/main.py).

The two pipelines are modelled as pure functions over an explicit state:
  * the vector store is an association list of named collections,
  * the embedding provider is an abstract function String → List Int
    (deterministic and stateless per call, as the external provider is),
  * distances are exact rationals,
  * the uuid4 generator is modelled as a fresh counter threaded through
    the upload (uuid4 is assumed collision free, so a fresh counter is a
    faithful rendering of "freshly generated unique identifier"),
  * calls to the embedding provider and to the vector store are recorded
    in an event trace so that "operation X is never invoked" is statable.

Fallible steps (pandas parse, chroma get_collection) are rendered with
Except.  A raised starlette HTTPException is an ordinary Exception, so a
raise inside a try body is caught by an `except Exception` handler; the
embedding follows that control flow exactly.
-/

set_option autoImplicit false
set_option maxRecDepth 4000

namespace ChromaSearch

/-- A scalar cell value of a parsed dataframe column (string or integer). -/
inductive Value where
  | vStr (s : String)
  | vInt (n : Int)
  deriving DecidableEq, Repr

/-- Python str() of a scalar value. -/
def strVal : Value → String
  | .vStr s => s
  | .vInt n => toString n

/-- A dataframe cell; `none` models a pandas missing value (NaN). -/
abbrev Cell := Option Value

/-- Python str() of a cell; pandas renders a missing value as "nan". -/
def strCell : Cell → String
  | none => "nan"
  | some v => strVal v

/-- A parsed dataframe: column names and rows of cells aligned with the columns. -/
structure Table where
  cols : List String
  rows : List (List Cell)
  deriving DecidableEq, Repr

/-- One call to the embedding provider or to the vector store. -/
inductive Event where
  | embed (texts : List String)
  | createColl (name : String)
  | getColl (name : String)
  | addRecs (name : String) (n : Nat)
  | listColls
  | query (name : String)
  deriving DecidableEq, Repr

/-- One stored record: (id, embedding, document, metadata). -/
structure Record where
  id : Nat
  embedding : List Int
  doc : String
  metadata : List (String × String)
  deriving DecidableEq, Repr

/-- The vector store: named collections in creation order. -/
abbrev Store := List (String × List Record)

/-- chroma_client.list_collections(), reduced to the collection names. -/
def listCollections (s : Store) : List String := s.map Prod.fst

/-- The records of the named collection (empty if the collection is missing). -/
def collRecords (s : Store) (name : String) : List Record :=
  match s.find? (fun p => p.1 == name) with
  | some p => p.2
  | none => []

/-- collection.count() for the named collection. -/
def collCount (s : Store) (name : String) : Nat := (collRecords s name).length

/-- Lines 133-136: try create_collection, on failure (name taken) get_collection. -/
def ensureCollection (s : Store) (name : String) : Store :=
  if (listCollections s).contains name then s else s ++ [(name, [])]

/-- collection.add(...): append a batch of records to the named collection. -/
def addRecords : Store → String → List Record → Store
  | [], _, _ => []
  | p :: t, name, recs =>
    if p.1 == name then (p.1, p.2 ++ recs) :: addRecords t name recs
    else p :: addRecords t name recs

/-- file.filename.endswith('.csv'), rendered over the character list. -/
def endsWithCsv (f : String) : Bool := ".csv".data.isSuffixOf f.data

/-- Python str.replace: replace every non-overlapping occurrence of `pat`,
scanning left to right.  The fuel argument makes the recursion structural;
`replaceAll` supplies fuel `s.length`, which never runs out (a match consumes
at least one character when `pat` is nonempty). -/
def replaceAllF (pat repl : List Char) : Nat → List Char → List Char
  | _, [] => []
  | 0, s => s
  | fuel + 1, c :: cs =>
    if pat ≠ [] ∧ pat.isPrefixOf (c :: cs) then
      repl ++ replaceAllF pat repl fuel ((c :: cs).drop pat.length)
    else
      c :: replaceAllF pat repl fuel cs

/-- Python s.replace(pat, repl) for a nonempty pattern. -/
def replaceAll (pat repl s : List Char) : List Char := replaceAllF pat repl s.length s

/-- Python str.replace(' ', '_') acts characterwise. -/
def spaceUnd (c : Char) : Char := if c = ' ' then '_' else c

/-- Line 130: file.filename.replace('.csv', '').replace(' ', '_').lower(). -/
def deriveName (filename : String) : String :=
  ⟨((replaceAll ".csv".data [] filename.data).map spaceUnd).map Char.toLower⟩

/-- Lines 151-153: metadata = {col: str(val) for col, val in row.items()
if col != 'Object_Text' and pd.notna(val)}. -/
def rowMetadata (cols : List String) (row : List Cell) : List (String × String) :=
  ((cols.zip row).filter (fun p => p.1 != "Object_Text" && p.2.isSome)).map
    (fun p => (p.1, strCell p.2))

/-- row['Object_Text']: the cell of the first column named `c`. -/
def getCell (cols : List String) (row : List Cell) (c : String) : Cell :=
  match (cols.zip row).find? (fun p => p.1 == c) with
  | some p => p.2
  | none => none

/-- Line 155: str(row['Object_Text']). -/
def rowDoc (cols : List String) (row : List Cell) : String :=
  strCell (getCell cols row "Object_Text")

/-- The record built for one row (lines 151-157 plus the per-document
embedding of line 160); `n` is the fresh identifier handed to the row. -/
def mkRecord (e : String → List Int) (cols : List String) (n : Nat) (row : List Cell) :
    Record :=
  { id := n
    embedding := e (rowDoc cols row)
    doc := rowDoc cols row
    metadata := rowMetadata cols row }

/-- The records of one batch, rows in order, identifiers counted up from `n`
(lines 146-160: the documents, metadatas and ids lists zipped by collection.add). -/
def batchRecords (e : String → List Int) (cols : List String) :
    List (List Cell) → Nat → List Record
  | [], _ => []
  | r :: rs, n => mkRecord e cols n r :: batchRecords e cols rs (n + 1)

/-- Lines 143-144: df.iloc[i:i+batch_size] for i in range(0, total, batch_size).
Fueled to keep the recursion structural; `chunkList` supplies fuel `xs.length`. -/
def chunkListF {α : Type} (b : Nat) : Nat → List α → List (List α)
  | _, [] => []
  | 0, _ => []
  | fuel + 1, x :: xs =>
    if b = 0 then [] else (x :: xs).take b :: chunkListF b fuel ((x :: xs).drop b)

/-- The batches of `xs` of size `b` in order. -/
def chunkList {α : Type} (b : Nat) (xs : List α) : List (List α) :=
  chunkListF b xs.length xs

/-- All records of a chunked ingestion, identifiers counted up from `n`. -/
def ingestBatches (e : String → List Int) (cols : List String) :
    List (List (List Cell)) → Nat → List Record
  | [], _ => []
  | batch :: bs, n =>
    batchRecords e cols batch n ++ ingestBatches e cols bs (n + batch.length)

/-- Lines 143-170: the batch loop.  Per batch: one embedding-provider call on
the batch's documents, one collection.add of the batch's records.  Returns the
final store, the next fresh identifier and the event trace. -/
def runBatches (e : String → List Int) (cols : List String) (name : String) :
    List (List (List Cell)) → Nat → Store → Store × Nat × List Event
  | [], n, s => (s, n, [])
  | batch :: bs, n, s =>
    let recs := batchRecords e cols batch n
    let rest := runBatches e cols name bs (n + batch.length) (addRecords s name recs)
    (rest.1, rest.2.1,
      Event.embed (batch.map (rowDoc cols)) :: Event.addRecs name recs.length :: rest.2.2)

/-- An HTTPException surfaced by the upload endpoint. -/
structure HErr where
  status : Nat
  detail : String
  deriving DecidableEq, Repr

/-- The success payload of POST /upload (lines 172-176). -/
structure UploadOk where
  collection_name : String
  count : Nat
  message : String
  deriving DecidableEq, Repr

def csvMissingColMsg : String := "CSV must contain 'Object_Text' column"

/-- str() of a starlette HTTPException: "status: detail". -/
def strHTTPErr (status : Nat) (detail : String) : String :=
  toString status ++ ": " ++ detail

def uploadMsg (n : Nat) (name : String) : String :=
  "Successfully uploaded " ++ toString n ++ " records to collection '" ++ name ++ "'"

/-- Lines 121-176, the try body of upload_file.  `parsed` is the outcome of
pd.read_csv (an error is a parse exception).  The HTTPException(400) raised
for a missing 'Object_Text' column is an Exception like any other, so for the
enclosing handler it is just its str() rendering.  In this model every failure
of the body happens before any store write, so the state is left untouched on
error. -/
def uploadTry (e : String → List Int) (b : Nat) (f : String)
    (parsed : Except String Table) (s : Store) (nid : Nat) :
    Except String (UploadOk × Store × Nat × List Event) :=
  match parsed with
  | .error msg => .error msg
  | .ok df =>
    if df.cols.contains "Object_Text" = false then
      .error (strHTTPErr 400 csvMissingColMsg)
    else
      let name := deriveName f
      let s0 := ensureCollection s name
      let out := runBatches e df.cols name (chunkList b df.rows) nid s0
      .ok ({ collection_name := name
             count := df.rows.length
             message := uploadMsg df.rows.length name },
           out.1, out.2.1, Event.createColl name :: out.2.2)

/-- Lines 113-179: POST /upload with batch size `b` (the source fixes b = 100;
the parameter lets the batch-size-irrelevance property be stated).  Returns
the endpoint outcome, the resulting store, the next fresh identifier and the
event trace. -/
def uploadFileW (e : String → List Int) (b : Nat) (f : String)
    (parsed : Except String Table) (modelLoaded : Bool) (s : Store) (nid : Nat) :
    Except HErr UploadOk × Store × Nat × List Event :=
  if endsWithCsv f = false then
    (.error ⟨400, "Only CSV files are supported"⟩, s, nid, [])
  else if modelLoaded = false then
    (.error ⟨500, "Embedding model not loaded"⟩, s, nid, [])
  else
    match uploadTry e b f parsed s nid with
    | .error msg => (.error ⟨500, "Error processing file: " ++ msg⟩, s, nid, [])
    | .ok (ok, s1, nid1, evs) => (.ok ok, s1, nid1, evs)

/-- POST /upload as shipped: batch size 100 (line 139). -/
def uploadFile (e : String → List Int) (f : String) (parsed : Except String Table)
    (modelLoaded : Bool) (s : Store) (nid : Nat) :
    Except HErr UploadOk × Store × Nat × List Event :=
  uploadFileW e 100 f parsed modelLoaded s nid

/-- The JSON body of POST /chat: data.get("message", "") and
data.get("collection", None). -/
structure ChatReq where
  message : Option String
  collection : Option String

/-- The endpoint outcome of POST /chat: returning a dict from the handler
yields HTTP 200 with a {response: string} body. -/
structure ChatResp where
  status : Nat
  response : String
  deriving DecidableEq, Repr

/-- One query result item: (document, metadata, distance). -/
abbrev QueryItem := String × List (String × String) × ℚ

/-- Insert a record into a list sorted by ascending key. -/
def insertSorted (key : Record → ℚ) (r : Record) : List Record → List Record
  | [] => [r]
  | x :: xs => if key r ≤ key x then r :: x :: xs else x :: insertSorted key r xs

/-- Insertion sort by ascending key: the store returns neighbors ranked by
distance. -/
def sortByKey (key : Record → ℚ) : List Record → List Record
  | [] => []
  | x :: xs => insertSorted key x (sortByKey key xs)

/-- Lines 81-85: collection.query(query_embeddings=[qe], n_results=5,
include=['documents', 'metadatas', 'distances']): the store's nearest
neighbors, at most 5, by ascending distance `d`. -/
def queryTop5 (d : List Int → List Int → ℚ) (recs : List Record) (qe : List Int) :
    List QueryItem :=
  ((sortByKey (fun r => d qe r.embedding) recs).take 5).map
    (fun r => (r.doc, r.metadata, d qe r.embedding))

/-- Python sep.join(parts). -/
def joinSep (sep : String) : List String → String
  | [] => ""
  | [x] => x
  | x :: y :: ys => x ++ sep ++ joinSep sep (y :: ys)

/-- Round a / b for b > 0 to the nearest integer, ties to even: Python .2%
formatting rounds half to even at the last kept digit. -/
def roundHalfEvenFrac (a b : ℤ) : ℤ :=
  let f := Int.fdiv a b
  let r2 := 2 * (a - f * b)
  if r2 < b then f else if b < r2 then f + 1 else if f % 2 = 0 then f else f + 1

/-- Left-pad a two-digit fraction part. -/
def pad2 (n : Nat) : String := if n < 10 then "0" ++ toString n else toString n

/-- Python format spec ".2%" (line 98): multiply by 100, fixed two decimals,
trailing '%'; a negative value keeps its sign even when it rounds to zero.
The rational x is formatted through its reduced numerator and denominator. -/
def fmtPct (x : ℚ) : String :=
  let m := (roundHalfEvenFrac ((x.num.natAbs : ℤ) * 10000) (x.den : ℤ)).toNat
  (if x.num < 0 then "-" else "") ++ toString (m / 100) ++ "." ++ pad2 (m % 100) ++ "%"

/-- Line 102: ", ".join(f"{k}: {v}" for k, v in metadata.items()
if k != 'Object_Text'). -/
def metaLine (metadata : List (String × String)) : String :=
  joinSep ", " ((metadata.filter (fun p => p.1 != "Object_Text")).map
    (fun p => p.1 ++ ": " ++ p.2))

/-- Lines 92-106: the response_parts contributed by the i-th result (0-based
`i`): the header with the 1-based rank and the similarity 1 - distance, the
document on the header's second line, an "Additional info" line when the
metadata is nonempty and keeps a pair besides 'Object_Text', then the empty
spacing part. -/
def entryParts (i : Nat) (item : QueryItem) : List String :=
  let doc := item.1
  let metadata := item.2.1
  let distance := item.2.2
  let similarity := 1 - distance
  let head := "**Result " ++ toString (i + 1) ++ "** (Similarity: " ++
    fmtPct similarity ++ ")\n" ++ doc
  head ::
    ((if !metadata.isEmpty && metaLine metadata != "" then
        ["Additional info: " ++ metaLine metadata]
      else []) ++ [""])

/-- Line 108: "\n".join(response_parts) over all enumerated results. -/
def formatResults (items : List QueryItem) : String :=
  joinSep "\n" ((items.enum.map (fun p => entryParts p.1 p.2)).flatten)

/-- chroma's message for get_collection on an unknown name. -/
def errGetColl (name : String) : String :=
  "Collection " ++ name ++ " does not exist."

/-- Lines 63-108, the try body of chat_endpoint: list the collections, pick
the requested or first collection, get it (the only failing call in the
model), embed the message (single-item call), query the top 5 and format.
Returns the body outcome plus the event trace accumulated up to the outcome. -/
def chatTry (d : List Int → List Int → ℚ) (e : String → List Int)
    (message : String) (collOpt : Option String) (s : Store) :
    Except String String × List Event :=
  let collections := listCollections s
  if collections.isEmpty then
    (.ok "No data collections available. Please upload a CSV file first.",
     [Event.listColls])
  else
    let name :=
      match collOpt with
      | some c => if c = "" then collections.headD "" else c
      | none => collections.headD ""
    if collections.contains name then
      let results := queryTop5 d (collRecords s name) (e message)
      if results.isEmpty then
        (.ok "No relevant results found for your query.",
         [Event.listColls, Event.getColl name, Event.embed [message], Event.query name])
      else
        (.ok (formatResults results),
         [Event.listColls, Event.getColl name, Event.embed [message], Event.query name])
    else
      (.error (errGetColl name), [Event.listColls, Event.getColl name])

/-- Lines 49-111: POST /chat.  The message defaults to "" when the key is
absent; the empty-message and missing-model checks precede the try body; the
catch-all except turns any body exception into the "Error searching" text.
Every branch returns a dict, hence HTTP 200. -/
def chatEndpoint (d : List Int → List Int → ℚ) (e : String → List Int)
    (modelLoaded : Bool) (req : ChatReq) (s : Store) : ChatResp × List Event :=
  let message := req.message.getD ""
  if message = "" then
    (⟨200, "Please provide a message to search."⟩, [])
  else if modelLoaded = false then
    (⟨200, "Embedding model not loaded. Please check the server logs."⟩, [])
  else
    match chatTry d e message req.collection s with
    | (.ok r, evs) => (⟨200, r⟩, evs)
    | (.error err, evs) => (⟨200, "Error searching: " ++ err⟩, evs)

/-- The per-result block the specification describes: header with 1-based
rank and similarity 1 - distance as a two-decimal percentage, the document
text, and a metadata line exactly when the metadata minus the 'Object_Text'
key is nonempty. -/
def entryBlock (i : Nat) (item : QueryItem) : String :=
  let base := "**Result " ++ toString (i + 1) ++ "** (Similarity: " ++
    fmtPct (1 - item.2.2) ++ ")\n" ++ item.1
  if item.2.1.filter (fun p => p.1 != "Object_Text") = [] then base
  else base ++ "\n" ++ ("Additional info: " ++ metaLine item.2.1)

/-- The spec-side name derivation of claim C5: strip the trailing '.csv'
extension only, replace spaces, lower-case. -/
def specStripName (f : String) : String :=
  ⟨(((f.data.take (f.data.length - 4)).map spaceUnd)).map Char.toLower⟩

/-- Does '.csv' occur as a contiguous substring? -/
def containsCsv : List Char → Bool
  | [] => false
  | c :: cs => ".csv".data.isPrefixOf (c :: cs) || containsCsv cs

/-- A record with the identifier erased, for "equal modulo identifiers". -/
def recData (r : Record) : String × List (String × String) × List Int :=
  (r.doc, r.metadata, r.embedding)

/-- A store with all record identifiers erased. -/
def storeData (s : Store) :
    List (String × List (String × List (String × String) × List Int)) :=
  s.map (fun p => (p.1, p.2.map recData))

/-- Default record used by positional lookups in theorem statements. -/
def defaultRecord : Record := ⟨0, [], "", []⟩

/-- A concrete embedding provider for witnesses. -/
def embedW : String → List Int := fun t => [(t.length : Int)]

/-- A concrete distance for witnesses. -/
def distW : List Int → List Int → ℚ := fun _ _ => 1 / 4

/-- A concrete two-row table with the required column. -/
def tW : Table :=
  ⟨["Object_Text", "Part"],
   [[some (.vStr "Brake pad"), some (.vStr "X123")],
    [some (.vStr "Disc"), none]]⟩

/-- A concrete one-row table with the required column. -/
def t1W : Table := ⟨["Object_Text"], [[some (.vStr "alpha")]]⟩

/-- A concrete table without the required column. -/
def tBadW : Table := ⟨["Name"], [[some (.vStr "x")]]⟩

/-! Helper lemmas about the ingestion pipeline. -/

theorem batchRecords_append (e : String → List Int) (cols : List String)
    (xs ys : List (List Cell)) (n : Nat) :
    batchRecords e cols (xs ++ ys) n =
      batchRecords e cols xs n ++ batchRecords e cols ys (n + xs.length) := by
  induction xs generalizing n with
  | nil => simp [batchRecords]
  | cons r rs ih =>
    have h1 : (r :: rs) ++ ys = r :: (rs ++ ys) := rfl
    rw [h1]
    simp only [batchRecords, List.length_cons, List.cons_append]
    rw [ih (n + 1)]
    rw [show n + 1 + rs.length = n + (rs.length + 1) from by omega]

theorem length_batchRecords (e : String → List Int) (cols : List String)
    (rows : List (List Cell)) (n : Nat) :
    (batchRecords e cols rows n).length = rows.length := by
  induction rows generalizing n with
  | nil => rfl
  | cons r rs ih => simp [batchRecords, ih]

theorem ingestBatches_chunkListF (e : String → List Int) (cols : List String)
    (b : Nat) (hb : 0 < b) :
    ∀ (fuel : Nat) (rows : List (List Cell)) (n : Nat), rows.length ≤ fuel →
      ingestBatches e cols (chunkListF b fuel rows) n = batchRecords e cols rows n := by
  intro fuel
  induction fuel with
  | zero =>
    intro rows n h
    have : rows = [] := List.eq_nil_of_length_eq_zero (Nat.le_zero.mp h)
    subst this
    rfl
  | succ f ih =>
    intro rows n h
    cases rows with
    | nil => rfl
    | cons x xs =>
      simp only [chunkListF]
      rw [if_neg (Nat.pos_iff_ne_zero.mp hb)]
      simp only [ingestBatches]
      rw [ih ((x :: xs).drop b) (n + ((x :: xs).take b).length)
        (by simp only [List.length_drop, List.length_cons] at h ⊢; omega)]
      rw [← batchRecords_append, List.take_append_drop]

theorem ingestBatches_chunkList (e : String → List Int) (cols : List String)
    (b : Nat) (hb : 0 < b) (rows : List (List Cell)) (n : Nat) :
    ingestBatches e cols (chunkList b rows) n = batchRecords e cols rows n :=
  ingestBatches_chunkListF e cols b hb rows.length rows n (Nat.le_refl _)

/-! Helper lemmas about the store. -/

theorem addRecords_nil (s : Store) (name : String) : addRecords s name [] = s := by
  induction s with
  | nil => rfl
  | cons p t ih =>
    cases hp : p.1 == name <;> simp [addRecords, hp, ih]

theorem addRecords_append (s : Store) (name : String) (r1 r2 : List Record) :
    addRecords (addRecords s name r1) name r2 = addRecords s name (r1 ++ r2) := by
  induction s with
  | nil => rfl
  | cons p t ih =>
    cases hp : p.1 == name <;>
      simp [addRecords, hp, ih, List.append_assoc]

theorem listCollections_addRecords (s : Store) (name : String) (recs : List Record) :
    listCollections (addRecords s name recs) = listCollections s := by
  induction s with
  | nil => rfl
  | cons p t ih =>
    cases hp : p.1 == name <;> simp [addRecords, listCollections, hp, ih] <;>
      simpa [listCollections] using ih

theorem collRecords_addRecords (s : Store) (name : String) (recs : List Record)
    (h : (listCollections s).contains name = true) :
    collRecords (addRecords s name recs) name = collRecords s name ++ recs := by
  induction s with
  | nil => simp [listCollections] at h
  | cons p t ih =>
    cases hp : p.1 == name with
    | true =>
      simp [addRecords, collRecords, List.find?, hp]
    | false =>
      simp only [addRecords, hp, Bool.false_eq_true, if_false]
      simp only [collRecords, List.find?, hp]
      apply ih
      simp only [listCollections, List.map_cons, List.contains_cons, Bool.or_eq_true] at h
      rcases h with h | h
      · rw [beq_iff_eq] at h
        rw [h] at hp
        simp at hp
      · simpa [listCollections] using h

theorem collRecords_snoc_self (s : Store) (name : String)
    (h : (listCollections s).contains name = false) :
    collRecords (s ++ [(name, [])]) name = [] := by
  induction s with
  | nil => simp [collRecords, List.find?]
  | cons p t ih =>
    simp only [listCollections, List.map_cons, List.contains_cons, Bool.or_eq_false_iff] at h
    simp only [List.cons_append, collRecords, List.find?]
    have hp : (p.1 == name) = false := by
      cases hq : p.1 == name
      · rfl
      · exact absurd (by simpa [eq_comm] using (beq_iff_eq.mp hq)) (by simpa using h.1)
    rw [hp]
    exact ih (by simpa [listCollections] using h.2)

theorem ensureCollection_of_mem (s : Store) (name : String)
    (h : (listCollections s).contains name = true) :
    ensureCollection s name = s := by
  unfold ensureCollection
  rw [h]
  rfl

theorem ensureCollection_of_fresh (s : Store) (name : String)
    (h : (listCollections s).contains name = false) :
    ensureCollection s name = s ++ [(name, [])] := by
  unfold ensureCollection
  rw [h]
  rfl

theorem contains_listCollections_ensure (s : Store) (name : String) :
    (listCollections (ensureCollection s name)).contains name = true := by
  by_cases h : (listCollections s).contains name = true
  · rw [ensureCollection_of_mem s name h]; exact h
  · rw [ensureCollection_of_fresh s name (by simpa using h)]
    simp [listCollections]

theorem collRecords_ensure_fresh (s : Store) (name : String)
    (h : (listCollections s).contains name = false) :
    collRecords (ensureCollection s name) name = [] := by
  rw [ensureCollection_of_fresh s name h]
  exact collRecords_snoc_self s name h

theorem runBatches_store (e : String → List Int) (cols : List String) (name : String) :
    ∀ (bs : List (List (List Cell))) (n : Nat) (s : Store),
      (runBatches e cols name bs n s).1 = addRecords s name (ingestBatches e cols bs n) := by
  intro bs
  induction bs with
  | nil => intro n s; simp [runBatches, ingestBatches, addRecords_nil]
  | cons batch rest ih =>
    intro n s
    simp only [runBatches, ingestBatches]
    rw [ih, addRecords_append]

/-! Evaluation lemmas for the upload endpoint on the success path. -/

theorem uploadFileW_resp (e : String → List Int) (b : Nat) (f : String) (t : Table)
    (s : Store) (nid : Nat) (hf : endsWithCsv f = true)
    (hcol : t.cols.contains "Object_Text" = true) :
    (uploadFileW e b f (.ok t) true s nid).1 =
      .ok ⟨deriveName f, t.rows.length, uploadMsg t.rows.length (deriveName f)⟩ := by
  have hmem : "Object_Text" ∈ t.cols := by simpa using hcol
  simp [uploadFileW, hf, uploadTry, hmem]

theorem uploadFileW_store (e : String → List Int) (b : Nat) (hb : 0 < b) (f : String)
    (t : Table) (s : Store) (nid : Nat) (hf : endsWithCsv f = true)
    (hcol : t.cols.contains "Object_Text" = true) :
    (uploadFileW e b f (.ok t) true s nid).2.1 =
      addRecords (ensureCollection s (deriveName f)) (deriveName f)
        (batchRecords e t.cols t.rows nid) := by
  have hmem : "Object_Text" ∈ t.cols := by simpa using hcol
  simp [uploadFileW, hf, uploadTry, hmem]
  rw [runBatches_store, ingestBatches_chunkList e t.cols b hb]

theorem collCount_upload_fresh (e : String → List Int) (b : Nat) (hb : 0 < b)
    (f : String) (t : Table) (s : Store) (nid : Nat) (hf : endsWithCsv f = true)
    (hcol : t.cols.contains "Object_Text" = true)
    (hfresh : (listCollections s).contains (deriveName f) = false) :
    collCount (uploadFileW e b f (.ok t) true s nid).2.1 (deriveName f) =
      t.rows.length := by
  rw [uploadFileW_store e b hb f t s nid hf hcol]
  unfold collCount
  rw [collRecords_addRecords _ _ _ (contains_listCollections_ensure s (deriveName f)),
    collRecords_ensure_fresh s (deriveName f) hfresh]
  simp [length_batchRecords]

/-! Helper lemmas about single rows and identifiers. -/

theorem batchRecords_getD (e : String → List Int) (cols : List String) :
    ∀ (rows : List (List Cell)) (n i : Nat), i < rows.length →
      (batchRecords e cols rows n).getD i defaultRecord =
        mkRecord e cols (n + i) (rows.getD i []) := by
  intro rows
  induction rows with
  | nil => intro n i h; simp at h
  | cons r rs ih =>
    intro n i h
    cases i with
    | zero => simp [batchRecords]
    | succ j =>
      simp only [batchRecords, List.getD_cons_succ]
      rw [ih (n + 1) j (by simp at h; omega)]
      congr 1
      omega

theorem mem_rowMetadata_iff (cols : List String) (row : List Cell) (c v : String) :
    (c, v) ∈ rowMetadata cols row ↔
      (c ≠ "Object_Text" ∧ ∃ w : Value, (c, some w) ∈ cols.zip row ∧ v = strVal w) := by
  unfold rowMetadata
  simp only [List.mem_map, List.mem_filter]
  constructor
  · rintro ⟨⟨c1, cell⟩, ⟨hmem, hcond⟩, heq⟩
    simp only [Bool.and_eq_true, bne_iff_ne, ne_eq] at hcond
    obtain ⟨w, hw⟩ := Option.isSome_iff_exists.mp hcond.2
    obtain ⟨hc, hv⟩ := Prod.mk.injEq .. ▸ heq
    subst hc
    subst hw
    exact ⟨by simpa using hcond.1, w, hmem, by rw [← hv]; rfl⟩
  · rintro ⟨hne, w, hmem, hv⟩
    exact ⟨(c, some w), ⟨hmem, by simp [hne]⟩, by simp [strCell, hv]⟩

theorem find?_of_nodup_keys :
    ∀ (l : List (String × Cell)) (c : String) (cell : Cell),
      (l.map Prod.fst).Nodup → (c, cell) ∈ l →
        l.find? (fun p => p.1 == c) = some (c, cell) := by
  intro l
  induction l with
  | nil => intro c cell _ h; simp at h
  | cons p t ih =>
    intro c cell hnd hmem
    rw [List.map_cons, List.nodup_cons] at hnd
    rcases List.mem_cons.mp hmem with h | h
    · cases h
      simp [List.find?]
    · have hck : c ∈ t.map Prod.fst := List.mem_map.mpr ⟨(c, cell), h, rfl⟩
      have hpc : (p.1 == c) = false := by
        cases hq : p.1 == c with
        | false => rfl
        | true => exact absurd (beq_iff_eq.mp hq ▸ hck) hnd.1
      simp only [List.find?, hpc]
      exact ih c cell hnd.2 h

theorem keys_zip_sublist :
    ∀ (cols : List String) (row : List Cell),
      ((cols.zip row).map Prod.fst).Sublist cols := by
  intro cols
  induction cols with
  | nil => intro row; simp
  | cons a t ih =>
    intro row
    cases row with
    | nil => simp
    | cons x xs => simpa using (ih xs).cons₂ a

theorem rowDoc_of_mem (cols : List String) (row : List Cell) (cell : Cell)
    (hnd : cols.Nodup) (hmem : ("Object_Text", cell) ∈ cols.zip row) :
    rowDoc cols row = strCell cell := by
  unfold rowDoc getCell
  rw [find?_of_nodup_keys (cols.zip row) "Object_Text" cell
    (hnd.sublist (keys_zip_sublist cols row)) hmem]

theorem mem_batchRecords_id_ge (e : String → List Int) (cols : List String) :
    ∀ (rows : List (List Cell)) (n : Nat) (r : Record),
      r ∈ batchRecords e cols rows n → n ≤ r.id := by
  intro rows
  induction rows with
  | nil => intro n r h; simp [batchRecords] at h
  | cons x xs ih =>
    intro n r h
    rcases List.mem_cons.mp h with h | h
    · subst h; exact Nat.le_refl _
    · exact Nat.le_of_succ_le (ih (n + 1) r h)

theorem nodup_ids_batchRecords (e : String → List Int) (cols : List String) :
    ∀ (rows : List (List Cell)) (n : Nat),
      ((batchRecords e cols rows n).map Record.id).Nodup := by
  intro rows
  induction rows with
  | nil => intro n; simp [batchRecords]
  | cons x xs ih =>
    intro n
    simp only [batchRecords, List.map_cons, List.nodup_cons]
    refine ⟨?_, ih (n + 1)⟩
    intro hmem
    rcases List.mem_map.mp hmem with ⟨r, hr, hid⟩
    have hge := mem_batchRecords_id_ge e cols xs (n + 1) r hr
    have : r.id = n := by simpa [mkRecord] using hid
    omega

theorem collRecords_uploadFile_fresh (e : String → List Int) (f : String)
    (t : Table) (s : Store) (nid : Nat) (hf : endsWithCsv f = true)
    (hcol : t.cols.contains "Object_Text" = true)
    (hfresh : (listCollections s).contains (deriveName f) = false) :
    collRecords (uploadFile e f (.ok t) true s nid).2.1 (deriveName f) =
      batchRecords e t.cols t.rows nid := by
  unfold uploadFile
  rw [uploadFileW_store e 100 (by norm_num) f t s nid hf hcol,
    collRecords_addRecords _ _ _ (contains_listCollections_ensure s (deriveName f)),
    collRecords_ensure_fresh s (deriveName f) hfresh]
  simp

/-! Helper lemmas for the collection-name derivation. -/

theorem csv_isPrefixOf_append (m : List Char)
    (h : List.isPrefixOf ['.', 'c', 's', 'v'] (m ++ ['.', 'c', 's', 'v']) = true) :
    m = [] ∨ List.isPrefixOf ['.', 'c', 's', 'v'] m = true := by
  match m with
  | [] => exact Or.inl rfl
  | [a] => simp [List.isPrefixOf] at h
  | [a, b] => simp [List.isPrefixOf] at h
  | [a, b, c] => simp [List.isPrefixOf] at h
  | a :: b :: c :: d :: rest =>
    right
    simp only [List.cons_append, List.isPrefixOf, Bool.and_eq_true, beq_iff_eq] at h ⊢
    exact ⟨h.1, h.2.1, h.2.2.1, h.2.2.2.1, trivial⟩

theorem replaceAllF_append_csv :
    ∀ (fuel : Nat) (l : List Char), containsCsv l = false →
      (l ++ ['.', 'c', 's', 'v']).length ≤ fuel →
      replaceAllF ['.', 'c', 's', 'v'] [] fuel (l ++ ['.', 'c', 's', 'v']) = l := by
  intro fuel
  induction fuel with
  | zero =>
    intro l _ hlen
    simp [List.length_append] at hlen
  | succ f ih =>
    intro l hc hlen
    cases l with
    | nil =>
      simp [replaceAllF, List.isPrefixOf]
    | cons c l1 =>
      simp only [containsCsv, Bool.or_eq_false_iff] at hc
      have hneg : ¬((['.', 'c', 's', 'v'] : List Char) ≠ [] ∧
          List.isPrefixOf ['.', 'c', 's', 'v'] (c :: (l1 ++ ['.', 'c', 's', 'v'])) = true) := by
        rintro ⟨-, hpre⟩
        rcases csv_isPrefixOf_append (c :: l1) hpre with h | h
        · exact List.cons_ne_nil c l1 h
        · have hfalse : List.isPrefixOf ['.', 'c', 's', 'v'] (c :: l1) = false := hc.1
          rw [h] at hfalse
          exact Bool.true_eq_false.mp hfalse
      simp only [List.cons_append, replaceAllF]
      split
      · next hcond => exact absurd hcond hneg
      · next =>
        exact congrArg (c :: ·)
          (ih l1 hc.2 (by simp only [List.length_append, List.length_cons] at hlen ⊢; omega))

/-! The claims. -/

/-- Claim C1: a '.csv'-named upload whose parsed table lacks the 'Object_Text'
column performs no store writes (the store, hence its collection listing, is
unchanged), but the operation does NOT fail with a 400-class error: the
HTTPException(400) raised inside the try block is itself an Exception, so the
catch-all handler converts it into a 500 whose detail embeds the str() of the
400.  This refutes the claimed 400-class status and confirms the no-writes
part; the code contradicts its own explicit status_code=400. -/
theorem claim_C1 (e : String → List Int) (b : Nat) (f : String) (t : Table)
    (s : Store) (nid : Nat) (hf : endsWithCsv f = true)
    (hcol : t.cols.contains "Object_Text" = false) :
    uploadFileW e b f (.ok t) true s nid =
      (.error ⟨500, "Error processing file: " ++ strHTTPErr 400 csvMissingColMsg⟩,
       s, nid, []) ∧
    listCollections (uploadFileW e b f (.ok t) true s nid).2.1 = listCollections s ∧
    (∀ d : String, (uploadFileW e b f (.ok t) true s nid).1 ≠ .error ⟨400, d⟩) := by
  have hmem : "Object_Text" ∉ t.cols := by simpa using hcol
  have h1 : uploadFileW e b f (.ok t) true s nid =
      (.error ⟨500, "Error processing file: " ++ strHTTPErr 400 csvMissingColMsg⟩,
       s, nid, []) := by
    simp [uploadFileW, hf, uploadTry, hmem]
  refine ⟨h1, by rw [h1], ?_⟩
  intro d hcontra
  have h2 := congrArg (fun r => r.1) h1
  simp only at h2
  rw [h2] at hcontra
  simp at hcontra

/-- Witness for claim C1 at a concrete failing input. -/
theorem claim_C1_witness :
    endsWithCsv "parts.csv" = true ∧
    tBadW.cols.contains "Object_Text" = false ∧
    uploadFileW embedW 100 "parts.csv" (.ok tBadW) true [] 0 =
      (.error ⟨500, "Error processing file: " ++ strHTTPErr 400 csvMissingColMsg⟩,
       [], 0, []) :=
  ⟨by decide, by decide,
    (claim_C1 embedW 100 "parts.csv" tBadW [] 0 (by decide) (by decide)).1⟩

/-- Claim C2: for a valid table and a fresh derived collection name, the
upload response is independent of the batch size, the stored record sets for
any two positive batch sizes agree modulo the generated identifiers (storeData
erases identifiers), the response reports the input row count, and the
resulting collection count equals the input row count. -/
theorem claim_C2 (e : String → List Int) (b1 b2 : Nat) (hb1 : 0 < b1)
    (hb2 : 0 < b2) (f : String) (t : Table) (s : Store) (nid : Nat)
    (hf : endsWithCsv f = true) (hcol : t.cols.contains "Object_Text" = true)
    (hfresh : (listCollections s).contains (deriveName f) = false) :
    (uploadFileW e b1 f (.ok t) true s nid).1 =
      (uploadFileW e b2 f (.ok t) true s nid).1 ∧
    storeData (uploadFileW e b1 f (.ok t) true s nid).2.1 =
      storeData (uploadFileW e b2 f (.ok t) true s nid).2.1 ∧
    (uploadFileW e b1 f (.ok t) true s nid).1 =
      .ok ⟨deriveName f, t.rows.length, uploadMsg t.rows.length (deriveName f)⟩ ∧
    collCount (uploadFileW e b1 f (.ok t) true s nid).2.1 (deriveName f) =
      t.rows.length := by
  have hr1 := uploadFileW_resp e b1 f t s nid hf hcol
  have hr2 := uploadFileW_resp e b2 f t s nid hf hcol
  have hs1 := uploadFileW_store e b1 hb1 f t s nid hf hcol
  have hs2 := uploadFileW_store e b2 hb2 f t s nid hf hcol
  exact ⟨by rw [hr1, hr2], by rw [hs1, hs2], hr1,
    collCount_upload_fresh e b1 hb1 f t s nid hf hcol hfresh⟩

/-- Witness for claim C2: batch sizes 1 and 100 on a concrete two-row table. -/
theorem claim_C2_witness :
    (uploadFileW embedW 1 "My Parts.csv" (.ok tW) true [] 0).1 =
      (uploadFileW embedW 100 "My Parts.csv" (.ok tW) true [] 0).1 ∧
    storeData (uploadFileW embedW 1 "My Parts.csv" (.ok tW) true [] 0).2.1 =
      storeData (uploadFileW embedW 100 "My Parts.csv" (.ok tW) true [] 0).2.1 ∧
    (uploadFileW embedW 1 "My Parts.csv" (.ok tW) true [] 0).1 =
      .ok ⟨deriveName "My Parts.csv", tW.rows.length,
        uploadMsg tW.rows.length (deriveName "My Parts.csv")⟩ ∧
    collCount (uploadFileW embedW 1 "My Parts.csv" (.ok tW) true [] 0).2.1
      (deriveName "My Parts.csv") = tW.rows.length :=
  claim_C2 embedW 1 100 (by decide) (by decide) "My Parts.csv" tW [] 0
    (by decide) (by decide) (by decide)

/-- Claim C3: two successful uploads whose filenames derive the same
collection name append: starting from a store without the derived name,
uploading N rows and then M rows under the same derived name leaves the
collection with N + M records, and both uploads succeed. -/
theorem claim_C3 (e : String → List Int) (f1 f2 : String) (t1 t2 : Table)
    (s : Store) (nid : Nat) (hf1 : endsWithCsv f1 = true)
    (hf2 : endsWithCsv f2 = true) (hsame : deriveName f2 = deriveName f1)
    (hc1 : t1.cols.contains "Object_Text" = true)
    (hc2 : t2.cols.contains "Object_Text" = true)
    (hfresh : (listCollections s).contains (deriveName f1) = false) :
    (∃ ok1, (uploadFile e f1 (.ok t1) true s nid).1 = .ok ok1) ∧
    (∃ ok2, (uploadFile e f2 (.ok t2) true
        (uploadFile e f1 (.ok t1) true s nid).2.1
        (uploadFile e f1 (.ok t1) true s nid).2.2.1).1 = .ok ok2) ∧
    collCount (uploadFile e f2 (.ok t2) true
        (uploadFile e f1 (.ok t1) true s nid).2.1
        (uploadFile e f1 (.ok t1) true s nid).2.2.1).2.1 (deriveName f1) =
      t1.rows.length + t2.rows.length := by
  have hb : (0 : Nat) < 100 := by norm_num
  have hs1 := uploadFileW_store e 100 hb f1 t1 s nid hf1 hc1
  have hcont1 : (listCollections (uploadFile e f1 (.ok t1) true s nid).2.1).contains
      (deriveName f1) = true := by
    unfold uploadFile
    rw [hs1, listCollections_addRecords]
    exact contains_listCollections_ensure s (deriveName f1)
  have hrec1 : collRecords (uploadFile e f1 (.ok t1) true s nid).2.1 (deriveName f1) =
      batchRecords e t1.cols t1.rows nid := by
    unfold uploadFile
    rw [hs1, collRecords_addRecords _ _ _ (contains_listCollections_ensure s (deriveName f1)),
      collRecords_ensure_fresh s (deriveName f1) hfresh]
    simp
  have hs2 := uploadFileW_store e 100 hb f2 t2
    (uploadFile e f1 (.ok t1) true s nid).2.1
    (uploadFile e f1 (.ok t1) true s nid).2.2.1 hf2 hc2
  rw [hsame] at hs2
  rw [ensureCollection_of_mem _ _ hcont1] at hs2
  refine ⟨⟨_, uploadFileW_resp e 100 f1 t1 s nid hf1 hc1⟩,
    ⟨_, uploadFileW_resp e 100 f2 t2 _ _ hf2 hc2⟩, ?_⟩
  show collCount (uploadFileW e 100 f2 (.ok t2) true
      (uploadFile e f1 (.ok t1) true s nid).2.1
      (uploadFile e f1 (.ok t1) true s nid).2.2.1).2.1 (deriveName f1) = _
  rw [hs2]
  unfold collCount
  rw [collRecords_addRecords _ _ _ hcont1, hrec1]
  simp [length_batchRecords]

/-- Witness for claim C3: "PARTS.csv" and "parts.csv" derive the same
collection name; one row plus two rows gives three records. -/
theorem claim_C3_witness :
    (∃ ok1, (uploadFile embedW "parts.csv" (.ok t1W) true [] 0).1 = .ok ok1) ∧
    (∃ ok2, (uploadFile embedW "PARTS.csv" (.ok tW) true
        (uploadFile embedW "parts.csv" (.ok t1W) true [] 0).2.1
        (uploadFile embedW "parts.csv" (.ok t1W) true [] 0).2.2.1).1 = .ok ok2) ∧
    collCount (uploadFile embedW "PARTS.csv" (.ok tW) true
        (uploadFile embedW "parts.csv" (.ok t1W) true [] 0).2.1
        (uploadFile embedW "parts.csv" (.ok t1W) true [] 0).2.2.1).2.1
      (deriveName "parts.csv") = t1W.rows.length + tW.rows.length :=
  claim_C3 embedW "parts.csv" "PARTS.csv" t1W tW [] 0 (by decide) (by decide)
    (by decide) (by decide) (by decide) (by decide)

/-- Claim C4: for a fresh upload of a valid table, the i-th stored record's
document is the stringified 'Object_Text' cell of the i-th row, its metadata
holds exactly the pairs (c, str(w)) for the non-null cells w of the other
columns c, one record exists per row, and the generated identifiers are
pairwise distinct. -/
theorem claim_C4 (e : String → List Int) (f : String) (t : Table) (s : Store)
    (nid : Nat) (hf : endsWithCsv f = true)
    (hcol : t.cols.contains "Object_Text" = true) (hnd : t.cols.Nodup)
    (hfresh : (listCollections s).contains (deriveName f) = false) :
    (collRecords (uploadFile e f (.ok t) true s nid).2.1 (deriveName f)).length =
      t.rows.length ∧
    (∀ i, i < t.rows.length →
      (∀ cell : Cell, ("Object_Text", cell) ∈ t.cols.zip (t.rows.getD i []) →
        ((collRecords (uploadFile e f (.ok t) true s nid).2.1
            (deriveName f)).getD i defaultRecord).doc = strCell cell) ∧
      (∀ c v : String,
        (c, v) ∈ ((collRecords (uploadFile e f (.ok t) true s nid).2.1
            (deriveName f)).getD i defaultRecord).metadata ↔
          (c ≠ "Object_Text" ∧
            ∃ w : Value, (c, some w) ∈ t.cols.zip (t.rows.getD i []) ∧
              v = strVal w))) ∧
    ((collRecords (uploadFile e f (.ok t) true s nid).2.1 (deriveName f)).map
      Record.id).Nodup := by
  have hrec := collRecords_uploadFile_fresh e f t s nid hf hcol hfresh
  have hids : ((collRecords (uploadFile e f (.ok t) true s nid).2.1
      (deriveName f)).map Record.id).Nodup := by
    rw [hrec]
    exact nodup_ids_batchRecords e t.cols t.rows nid
  refine ⟨by rw [hrec, length_batchRecords], ?_, hids⟩
  intro i hi
  rw [hrec, batchRecords_getD e t.cols t.rows nid i hi]
  constructor
  · intro cell hmem
    exact rowDoc_of_mem t.cols (t.rows.getD i []) cell hnd hmem
  · intro c v
    exact mem_rowMetadata_iff t.cols (t.rows.getD i []) c v

/-- Witness for claim C4 on a concrete two-row table. -/
theorem claim_C4_witness :
    (collRecords (uploadFile embedW "My Parts.csv" (.ok tW) true [] 0).2.1
        (deriveName "My Parts.csv")).length = tW.rows.length ∧
    (∀ i, i < tW.rows.length →
      (∀ cell : Cell, ("Object_Text", cell) ∈ tW.cols.zip (tW.rows.getD i []) →
        ((collRecords (uploadFile embedW "My Parts.csv" (.ok tW) true [] 0).2.1
            (deriveName "My Parts.csv")).getD i defaultRecord).doc =
          strCell cell) ∧
      (∀ c v : String,
        (c, v) ∈ ((collRecords (uploadFile embedW "My Parts.csv" (.ok tW) true
            [] 0).2.1 (deriveName "My Parts.csv")).getD i
            defaultRecord).metadata ↔
          (c ≠ "Object_Text" ∧
            ∃ w : Value, (c, some w) ∈ tW.cols.zip (tW.rows.getD i []) ∧
              v = strVal w))) ∧
    ((collRecords (uploadFile embedW "My Parts.csv" (.ok tW) true [] 0).2.1
        (deriveName "My Parts.csv")).map Record.id).Nodup :=
  claim_C4 embedW "My Parts.csv" tW [] 0 (by decide) (by decide) (by decide)
    (by decide)

/-- Counterexample to claim C5 as stated: "a.csv.csv" is an accepted filename
(it ends in '.csv'), but line 130's replace('.csv', '') removes EVERY
occurrence of '.csv', so the derived name is "a", not the "a.csv" that
stripping only the trailing extension would leave. -/
theorem claim_C5_counterexample :
    endsWithCsv "a.csv.csv" = true ∧
    deriveName "a.csv.csv" = "a" ∧
    specStripName "a.csv.csv" = "a.csv" ∧
    deriveName "a.csv.csv" ≠ specStripName "a.csv.csv" := by
  refine ⟨by decide, by decide, by decide, by decide⟩

/-- Claim C5 (amended): the derived collection name removes every occurrence
of '.csv' (then replaces spaces and lower-cases); when '.csv' does not occur
inside the stem, this coincides with stripping only the trailing extension,
so the interior of the name is preserved apart from case and space
substitution. -/
theorem claim_C5 (l : List Char) (h : containsCsv l = false) :
    deriveName ⟨l ++ ".csv".data⟩ = specStripName ⟨l ++ ".csv".data⟩ ∧
    endsWithCsv ⟨l ++ ".csv".data⟩ = true := by
  have h1 : replaceAll ".csv".data [] (l ++ ".csv".data) = l :=
    replaceAllF_append_csv (l ++ ['.', 'c', 's', 'v']).length l h (Nat.le_refl _)
  constructor
  · show String.mk (((replaceAll ".csv".data []
        (l ++ ".csv".data)).map spaceUnd).map Char.toLower) =
      String.mk ((((l ++ ".csv".data).take
        ((l ++ ".csv".data).length - 4)).map spaceUnd).map Char.toLower)
    rw [h1]
    have h2 : (l ++ (".csv".data : List Char)).length - 4 = l.length := by
      simp [List.length_append]
    rw [h2, List.take_left' rfl]
  · show (".csv".data.isSuffixOf (l ++ ".csv".data)) = true
    simp [List.isSuffixOf_iff_suffix]

/-- Witness for claim C5 (amended) on a stem free of interior '.csv'. -/
theorem claim_C5_witness :
    containsCsv "My File".data = false ∧
    (deriveName ⟨"My File".data ++ ".csv".data⟩ =
        specStripName ⟨"My File".data ++ ".csv".data⟩ ∧
      endsWithCsv ⟨"My File".data ++ ".csv".data⟩ = true) :=
  ⟨by decide, claim_C5 "My File".data (by decide)⟩

/-- Claim C10: uploading a '.csv'-named file that parses to a table with the
'Object_Text' column and zero data rows succeeds with count 0, the batch loop
runs zero times (the event trace holds only the collection-creation call: no
embedding-provider call and no record write), and the derived collection
exists afterwards. -/
theorem claim_C10 (e : String → List Int) (f : String) (t : Table) (s : Store)
    (nid : Nat) (hf : endsWithCsv f = true) (hrows : t.rows = [])
    (hcol : t.cols.contains "Object_Text" = true) :
    (uploadFile e f (.ok t) true s nid).1 =
      .ok ⟨deriveName f, 0, uploadMsg 0 (deriveName f)⟩ ∧
    (uploadFile e f (.ok t) true s nid).2.2.2 = [Event.createColl (deriveName f)] ∧
    (uploadFile e f (.ok t) true s nid).2.1 = ensureCollection s (deriveName f) ∧
    (listCollections (uploadFile e f (.ok t) true s nid).2.1).contains
      (deriveName f) = true := by
  have hmem : "Object_Text" ∈ t.cols := by simpa using hcol
  have h1 : uploadFile e f (.ok t) true s nid =
      (.ok ⟨deriveName f, 0, uploadMsg 0 (deriveName f)⟩,
       ensureCollection s (deriveName f), nid, [Event.createColl (deriveName f)]) := by
    simp [uploadFile, uploadFileW, hf, uploadTry, hmem, hrows, chunkList, chunkListF,
      runBatches]
  refine ⟨by rw [h1], by rw [h1], by rw [h1], ?_⟩
  rw [h1]
  exact contains_listCollections_ensure s (deriveName f)

/-- Witness for claim C10: a header-only table. -/
theorem claim_C10_witness :
    (uploadFile embedW "empty set.csv" (.ok ⟨["Object_Text"], []⟩) true [] 7).1 =
      .ok ⟨deriveName "empty set.csv", 0, uploadMsg 0 (deriveName "empty set.csv")⟩ ∧
    (uploadFile embedW "empty set.csv" (.ok ⟨["Object_Text"], []⟩) true [] 7).2.2.2 =
      [Event.createColl (deriveName "empty set.csv")] ∧
    (uploadFile embedW "empty set.csv" (.ok ⟨["Object_Text"], []⟩) true [] 7).2.1 =
      ensureCollection [] (deriveName "empty set.csv") ∧
    (listCollections (uploadFile embedW "empty set.csv"
        (.ok ⟨["Object_Text"], []⟩) true [] 7).2.1).contains
      (deriveName "empty set.csv") = true :=
  claim_C10 embedW "empty set.csv" ⟨["Object_Text"], []⟩ [] 7 (by decide) rfl
    (by decide)

/-! Helper lemmas for the chat response formatting. -/

theorem joinSep_pairs_ne_empty (q : String × String)
    (rest : List (String × String)) :
    joinSep ", " ((q :: rest).map (fun p => p.1 ++ ": " ++ p.2)) ≠ "" := by
  cases rest with
  | nil =>
    show q.1 ++ ": " ++ q.2 ≠ ""
    intro hcontra
    have hd := congrArg String.data hcontra
    simp [String.data_append] at hd
  | cons q2 rest2 =>
    show (q.1 ++ ": " ++ q.2) ++ ", " ++
        joinSep ", " ((q2 :: rest2).map (fun p => p.1 ++ ": " ++ p.2)) ≠ ""
    intro hcontra
    have hd := congrArg String.data hcontra
    simp [String.data_append] at hd

theorem metaLine_empty_of_filter_nil (m : List (String × String))
    (hf : m.filter (fun p => p.1 != "Object_Text") = []) : metaLine m = "" := by
  unfold metaLine
  rw [hf]
  rfl

theorem metaLine_ne_empty_of_filter_cons (m : List (String × String))
    (q : String × String) (rest : List (String × String))
    (hf : m.filter (fun p => p.1 != "Object_Text") = q :: rest) :
    metaLine m ≠ "" := by
  unfold metaLine
  rw [hf]
  exact joinSep_pairs_ne_empty q rest

theorem joinSep_entryParts (i : Nat) (x : QueryItem) :
    joinSep "\n" (entryParts i x) = entryBlock i x ++ "\n" := by
  obtain ⟨doc, metadata, distance⟩ := x
  cases hf : metadata.filter (fun p => p.1 != "Object_Text") with
  | nil =>
    have hml : metaLine metadata = "" := metaLine_empty_of_filter_nil metadata hf
    have hcond : (!metadata.isEmpty && metaLine metadata != "") = false := by
      simp [hml]
    simp only [entryParts, entryBlock, hcond, hf, Bool.false_eq_true, if_false, if_pos,
      List.nil_append]
    show _ ++ "\n" ++ "" = _ ++ "\n"
    rw [String.append_empty]
  | cons q rest =>
    have hml : metaLine metadata ≠ "" := metaLine_ne_empty_of_filter_cons metadata q rest hf
    have hm : metadata.isEmpty = false := by
      cases metadata with
      | nil => simp at hf
      | cons a b => rfl
    have hcond : (!metadata.isEmpty && metaLine metadata != "") = true := by
      simp [hm, hml]
    simp only [entryParts, entryBlock, hcond, hf, if_true, List.cons_append,
      List.nil_append]
    rw [if_neg (by simp [hf])]
    show _ ++ "\n" ++ (("Additional info: " ++ metaLine metadata) ++ "\n" ++ "") =
      (_ ++ "\n" ++ ("Additional info: " ++ metaLine metadata)) ++ "\n"
    rw [String.append_empty]
    simp [String.append_assoc]

theorem entryParts_ne_nil (i : Nat) (x : QueryItem) : entryParts i x ≠ [] := by
  simp [entryParts]

theorem joinSep_append (sep : String) :
    ∀ (a b : List String), a ≠ [] → b ≠ [] →
      joinSep sep (a ++ b) = joinSep sep a ++ sep ++ joinSep sep b := by
  intro a
  induction a with
  | nil => intro b h _; exact absurd rfl h
  | cons x a1 ih =>
    intro b _ hb
    cases a1 with
    | nil =>
      cases b with
      | nil => exact absurd rfl hb
      | cons y ys => rfl
    | cons x2 a2 =>
      show x ++ sep ++ joinSep sep ((x2 :: a2) ++ b) =
        (x ++ sep ++ joinSep sep (x2 :: a2)) ++ sep ++ joinSep sep b
      rw [ih b (List.cons_ne_nil x2 a2) hb]
      simp [String.append_assoc]

theorem formatResults_enumFrom (items : List QueryItem) :
    ∀ k : Nat, items ≠ [] →
      joinSep "\n" (((items.enumFrom k).map (fun p => entryParts p.1 p.2)).flatten) =
        joinSep "\n\n" ((items.enumFrom k).map (fun p => entryBlock p.1 p.2)) ++ "\n" := by
  induction items with
  | nil => intro k h; exact absurd rfl h
  | cons x rest ih =>
    intro k _
    cases rest with
    | nil =>
      show joinSep "\n" (entryParts k x ++ []) = entryBlock k x ++ "\n"
      rw [List.append_nil]
      exact joinSep_entryParts k x
    | cons y rest2 =>
      have hA : entryParts k x ≠ [] := entryParts_ne_nil k x
      have hB : (((y :: rest2).enumFrom (k + 1)).map
          (fun p => entryParts p.1 p.2)).flatten ≠ [] := by
        show entryParts (k + 1) y ++ _ ≠ []
        intro hc
        rw [List.append_eq_nil] at hc
        exact entryParts_ne_nil (k + 1) y hc.1
      show joinSep "\n" (entryParts k x ++
          (((y :: rest2).enumFrom (k + 1)).map (fun p => entryParts p.1 p.2)).flatten) =
        (entryBlock k x ++ "\n\n" ++
          joinSep "\n\n" (((y :: rest2).enumFrom (k + 1)).map
            (fun p => entryBlock p.1 p.2))) ++ "\n"
      rw [joinSep_append "\n" _ _ hA hB, joinSep_entryParts k x,
        ih (k + 1) (List.cons_ne_nil y rest2)]
      rw [show (entryBlock k x ++ "\n") ++ "\n" = entryBlock k x ++ "\n\n" from by
        rw [String.append_assoc]
        congr 1]
      simp [String.append_assoc]

/-- Claim C6: the formatted chat response over a nonempty result list equals,
entry by entry in store order, blank-line-separated blocks (plus the trailing
newline the final spacing part produces): each block is the header with the
1-based rank and the similarity 1 - distance as a two-decimal percentage, the
document text on the next line, and — exactly when the metadata minus the
'Object_Text' key is nonempty — one further line of comma-joined key: value
pairs; moreover the store query yields at most 5 results. -/
theorem claim_C6 (items : List QueryItem) (h : items ≠ []) :
    formatResults items =
      joinSep "\n\n" (items.enum.map (fun p => entryBlock p.1 p.2)) ++ "\n" ∧
    (∀ (d : List Int → List Int → ℚ) (recs : List Record) (qe : List Int),
      (queryTop5 d recs qe).length ≤ 5) := by
  constructor
  · have h0 := formatResults_enumFrom items 0 h
    simpa [formatResults, List.enum] using h0
  · intro d recs qe
    unfold queryTop5
    rw [List.length_map]
    exact List.length_take_le 5 _

/-- Witness for claim C6 on a concrete single-result list. -/
theorem claim_C6_witness :
    ([("Brake pad", [("Part", "X123")], distW [] [])] : List QueryItem) ≠ [] ∧
    formatResults [("Brake pad", [("Part", "X123")], distW [] [])] =
      joinSep "\n\n" (([("Brake pad", [("Part", "X123")], distW [] [])] :
        List QueryItem).enum.map (fun p => entryBlock p.1 p.2)) ++ "\n" :=
  ⟨List.cons_ne_nil _ _,
   (claim_C6 [("Brake pad", [("Part", "X123")], distW [] [])]
     (List.cons_ne_nil _ _)).1⟩

/-- Claim C7: POST /chat always answers HTTP 200 with a response string, and
any exception of the try body (in the model: the collection lookup) is
converted into the "Error searching: ..." response text rather than
propagated. -/
theorem claim_C7 (d : List Int → List Int → ℚ) (e : String → List Int)
    (ml : Bool) (req : ChatReq) (s : Store) :
    (chatEndpoint d e ml req s).1.status = 200 ∧
    (∀ (err : String) (evs : List Event), req.message.getD "" ≠ "" → ml = true →
      chatTry d e (req.message.getD "") req.collection s = (.error err, evs) →
      chatEndpoint d e ml req s = (⟨200, "Error searching: " ++ err⟩, evs)) := by
  constructor
  · simp only [chatEndpoint]
    split
    · rfl
    · split
      · rfl
      · rcases hq : chatTry d e (req.message.getD "") req.collection s with ⟨r, evs⟩
        cases r with
        | ok v => simp [hq]
        | error err => simp [hq]
  · intro err evs hm hml hq
    subst hml
    simp only [chatEndpoint]
    rw [if_neg hm]
    simp only [Bool.true_eq_false, if_false, hq]

/-- Witness for claim C7: a request naming a missing collection still gets
a 200 whose text embeds the lookup error. -/
theorem claim_C7_witness :
    (chatEndpoint distW embedW true ⟨some "hi", some "nope"⟩ [("c", [])]).1.status
      = 200 ∧
    chatEndpoint distW embedW true ⟨some "hi", some "nope"⟩ [("c", [])] =
      (⟨200, "Error searching: " ++ errGetColl "nope"⟩,
       [Event.listColls, Event.getColl "nope"]) :=
  ⟨(claim_C7 distW embedW true ⟨some "hi", some "nope"⟩ [("c", [])]).1,
   (claim_C7 distW embedW true ⟨some "hi", some "nope"⟩ [("c", [])]).2
     (errGetColl "nope") [Event.listColls, Event.getColl "nope"]
     (by decide) rfl rfl⟩

/-- Claim C8: the chat preconditions are checked in order — nonempty message
first (regardless of model or store, with an empty event trace: neither the
provider nor the store is invoked), then provider availability (still no
store or provider call), then nonemptiness of the collection listing — and
the three explanatory responses are pairwise distinct. -/
theorem claim_C8 (d : List Int → List Int → ℚ) (e : String → List Int)
    (ml : Bool) (req : ChatReq) (s : Store) :
    (req.message.getD "" = "" →
      chatEndpoint d e ml req s =
        (⟨200, "Please provide a message to search."⟩, [])) ∧
    (req.message.getD "" ≠ "" → ml = false →
      chatEndpoint d e ml req s =
        (⟨200, "Embedding model not loaded. Please check the server logs."⟩, [])) ∧
    (req.message.getD "" ≠ "" → ml = true → listCollections s = [] →
      chatEndpoint d e ml req s =
        (⟨200, "No data collections available. Please upload a CSV file first."⟩,
         [Event.listColls])) ∧
    ("Please provide a message to search." ≠
      "Embedding model not loaded. Please check the server logs." ∧
     "Please provide a message to search." ≠
      "No data collections available. Please upload a CSV file first." ∧
     "Embedding model not loaded. Please check the server logs." ≠
      "No data collections available. Please upload a CSV file first.") := by
  refine ⟨?_, ?_, ?_, by decide⟩
  · intro h
    simp [chatEndpoint, h]
  · intro h hml
    subst hml
    simp only [chatEndpoint]
    rw [if_neg h]
    rfl
  · intro h hml hcols
    subst hml
    simp only [chatEndpoint]
    rw [if_neg h]
    simp [chatTry, hcols]

/-- Witness for claim C8: the three precondition branches at concrete
inputs. -/
theorem claim_C8_witness :
    chatEndpoint distW embedW true ⟨some "", none⟩ [("c", [])] =
      (⟨200, "Please provide a message to search."⟩, []) ∧
    chatEndpoint distW embedW false ⟨some "hi", none⟩ [("c", [])] =
      (⟨200, "Embedding model not loaded. Please check the server logs."⟩, []) ∧
    chatEndpoint distW embedW true ⟨some "hi", none⟩ [] =
      (⟨200, "No data collections available. Please upload a CSV file first."⟩,
       [Event.listColls]) :=
  ⟨(claim_C8 distW embedW true ⟨some "", none⟩ [("c", [])]).1 rfl,
   (claim_C8 distW embedW false ⟨some "hi", none⟩ [("c", [])]).2.1 (by decide) rfl,
   (claim_C8 distW embedW true ⟨some "hi", none⟩ []).2.2.1 (by decide) rfl rfl⟩

/-- Claim C9: a chat request whose JSON body omits the 'message' key is
treated exactly like an empty message: the 'Please provide a message'
response with no provider or store call, identical to the empty-string
request. -/
theorem claim_C9 (d : List Int → List Int → ℚ) (e : String → List Int)
    (ml : Bool) (coll : Option String) (s : Store) :
    chatEndpoint d e ml ⟨none, coll⟩ s =
      (⟨200, "Please provide a message to search."⟩, []) ∧
    chatEndpoint d e ml ⟨none, coll⟩ s = chatEndpoint d e ml ⟨some "", coll⟩ s := by
  exact ⟨rfl, rfl⟩

end ChromaSearch
